import Mathlib

/-!
Verification of the GPIO module of the stm32-hal repository (`src/gpio.rs`).

The Rust source drives memory-mapped peripheral registers through PAC
(peripheral access crate) field accessors.  We embed the module shallowly:

* each peripheral register is a `Nat` holding the register word; a PAC
  `modify` through a typed field writer is a masked field insert (`setField`),
  a field read is `getField`;
* the per-pin-number dispatch macros (`set_field!`, `set_alt!`,
  `get_input_data!`, `set_state!`, `set_exti!`) match over pin numbers 0–15
  and panic otherwise before touching any register; we model a panic as a
  distinguished result carrying the register writes that were issued before
  the panic (`WResult.panicked`), so "no write precedes the abort" is the
  statement that this list is empty;
* configuration operations are state-independent and return the list of
  register writes they perform (`WResult.ok`); `applyWrites` interprets such
  a list against a register-block state `GpioRegs`;
* the source is compiled for one target family at a time via `cfg` feature
  flags.  Where branches differ we model the branch noted in the doc comment
  of the corresponding definition.
-/

namespace Gpio

/-- Values for `GPIOx_MODER` (source enum `PinMode`). -/
inductive PinMode where
  | Input
  | Output
  | Alt (af : Nat)
  | Analog
deriving DecidableEq

/-- `PinMode::val`: the 2-bit MODER encoding of a mode. -/
def PinMode.val : PinMode → Nat
  | PinMode.Input => 0
  | PinMode.Output => 1
  | PinMode.Alt _ => 2
  | PinMode.Analog => 3

/-- Values for `GPIOx_OTYPER` (source enum `OutputType`). -/
inductive OutputType where
  | PushPull
  | OpenDrain
deriving DecidableEq

/-- The `repr(u8)` discriminant of `OutputType`. -/
def OutputType.val : OutputType → Nat
  | OutputType.PushPull => 0
  | OutputType.OpenDrain => 1

/-- Values for `GPIOx_OSPEEDR` (source enum `OutputSpeed`, non-f3 variant
which includes `Fast`). -/
inductive OutputSpeed where
  | Low
  | Medium
  | Fast
  | High
deriving DecidableEq

/-- The `repr(u8)` discriminant of `OutputSpeed`. -/
def OutputSpeed.val : OutputSpeed → Nat
  | OutputSpeed.Low => 0
  | OutputSpeed.Medium => 1
  | OutputSpeed.Fast => 2
  | OutputSpeed.High => 3

/-- Values for `GPIOx_PUPDR` (source enum `Pull`). -/
inductive Pull where
  | Floating
  | Up
  | Dn
deriving DecidableEq

/-- The `repr(u8)` discriminant of `Pull`. -/
def Pull.val : Pull → Nat
  | Pull.Floating => 0
  | Pull.Up => 1
  | Pull.Dn => 2

/-- Values for `GPIOx_IDR` and `GPIOx_ODR` (source enum `PinState`). -/
inductive PinState where
  | High
  | Low
deriving DecidableEq

/-- Values for `GPIOx_LCKR` (source enum `CfgLock`). -/
inductive CfgLock where
  | NotLocked
  | Locked
deriving DecidableEq

/-- The `repr(u8)` discriminant of `CfgLock`. -/
def CfgLock.val : CfgLock → Nat
  | CfgLock.NotLocked => 0
  | CfgLock.Locked => 1

/-- GPIO port letter (source enum `Port`).  We model a target on which all
eight ports A–H are available (the port set is narrowed per target by `cfg`
attributes in the source). -/
inductive Port where
  | A
  | B
  | C
  | D
  | E
  | F
  | G
  | H
deriving DecidableEq

/-- `Port::cr_val`: the numeric routing code of a port used in the SYSCFG
EXTICR control fields (F303 RM section 12.1.3). -/
def Port.cr_val : Port → Nat
  | Port.A => 0
  | Port.B => 1
  | Port.C => 2
  | Port.D => 3
  | Port.E => 4
  | Port.F => 5
  | Port.G => 6
  | Port.H => 7

/-- The pulse edge used to trigger interrupts (source enum `Edge`). -/
inductive Edge where
  | Rising
  | Falling
deriving DecidableEq

/-- A single GPIO pin identity: port letter plus pin number (source struct
`Pin`; both fields are public in the source, so arbitrary pin numbers are
constructible). -/
structure Pin where
  port : Port
  pin : Nat
deriving DecidableEq

/-- Extract the `width`-bit field at bit offset `off` of a register word. -/
def getField (w off width : Nat) : Nat := w / 2 ^ off % 2 ^ width

/-- Masked field insert, the semantics of a PAC `modify` through a typed
field writer: bits below `off` and at or above `off + width` are preserved
and the field is replaced by `v` truncated to `width` bits. -/
def setField (w off width v : Nat) : Nat :=
  2 ^ off * (2 ^ width * (w / 2 ^ (off + width)) + v % 2 ^ width) + w % 2 ^ off

/-- One register write against a GPIO port register block, as issued by the
dispatch macros.  The constructor identifies the register and field (per-pin
fields carry the pin number), mirroring the PAC field writers used in the
source; `bsrr` is a whole-word write because the source writes
`w.bits(1 << (offset + num))` directly. -/
inductive GWrite where
  | moder (pin v : Nat)
  | otyper (pin : Nat) (b : Bool)
  | ospeedr (pin v : Nat)
  | pupdr (pin v : Nat)
  | lckr (pin : Nat) (b : Bool)
  | afrl (pin v : Nat)
  | afrh (pin v : Nat)
  | bsrr (w : Nat)
deriving DecidableEq

/-- Result of a (possibly panicking) sequence of register writes: the writes
issued so far, and whether execution aborted.  `panicked ws` records exactly
the writes that were performed before the abort. -/
inductive WResult where
  | ok (writes : List GWrite)
  | panicked (writes : List GWrite)
deriving DecidableEq

/-- Sequencing of two write sequences: if the first aborts the second never
runs; otherwise the writes accumulate. -/
def WResult.andThen : WResult → WResult → WResult
  | WResult.ok ws, WResult.ok ws2 => WResult.ok (ws ++ ws2)
  | WResult.ok ws, WResult.panicked ws2 => WResult.panicked (ws ++ ws2)
  | WResult.panicked ws, _ => WResult.panicked ws

/-- The register block of one GPIO port (`pac::gpioa::RegisterBlock`): each
field is the current register word. -/
structure GpioRegs where
  moder : Nat
  otyper : Nat
  ospeedr : Nat
  pupdr : Nat
  lckr : Nat
  afrl : Nat
  afrh : Nat
  idr : Nat
  odr : Nat
deriving DecidableEq

/-- Hardware semantics of a write of word `w` to `GPIOx_BSRR`: for each pin
bit `i < 16`, bit `i` of `w` sets ODR bit `i`, bit `i + 16` of `w` resets it
(set having priority), and all other ODR bits are untouched.  Expressed with
16-bit masks; `2 ^ 16 - 1` is the all-ones 16-bit word used as complement
mask. -/
def applyBsrr (odr w : Nat) : Nat :=
  (odr &&& ((((w >>> 16) % 2 ^ 16) &&& ((w % 2 ^ 16) ^^^ (2 ^ 16 - 1))) ^^^ (2 ^ 16 - 1))) |||
    w % 2 ^ 16

/-- Interpret one register write against a port register block.  Field
widths and offsets follow the reference-manual layout exposed by the PAC:
MODER/OSPEEDR/PUPDR hold 2 bits per pin, OTYPER/LCKR 1 bit per pin, and the
alternate-function value is 4 bits per pin split across AFRL (pins 0–7) and
AFRH (pins 8–15). -/
def applyWrite (s : GpioRegs) : GWrite → GpioRegs
  | GWrite.moder pin v => { s with moder := setField s.moder (2 * pin) 2 v }
  | GWrite.otyper pin b => { s with otyper := setField s.otyper pin 1 (if b then 1 else 0) }
  | GWrite.ospeedr pin v => { s with ospeedr := setField s.ospeedr (2 * pin) 2 v }
  | GWrite.pupdr pin v => { s with pupdr := setField s.pupdr (2 * pin) 2 v }
  | GWrite.lckr pin b => { s with lckr := setField s.lckr pin 1 (if b then 1 else 0) }
  | GWrite.afrl pin v => { s with afrl := setField s.afrl (4 * pin) 4 v }
  | GWrite.afrh pin v => { s with afrh := setField s.afrh (4 * (pin - 8)) 4 v }
  | GWrite.bsrr w => { s with odr := applyBsrr s.odr w }

/-- Interpret a list of register writes in order. -/
def applyWrites (s : GpioRegs) (ws : List GWrite) : GpioRegs := ws.foldl applyWrite s

/-- The `set_field!` macro: a match over pin numbers 0–15 that performs the
single field write `w` for an in-range pin and panics — issuing no write —
otherwise ("GPIO pins must be 0 - 15."). -/
def set_field (pin : Nat) (w : GWrite) : WResult :=
  if pin ≤ 15 then WResult.ok [w] else WResult.panicked []

/-- The `set_alt!` macro: a match over pin numbers 0–15 whose arm for pin
`num` first writes `MODER` field `num` with `PinMode::Alt(0).val()`, then
writes the 4-bit alternate-function field of the bank named in the arm list —
`afrl` for arms `(0,l)`–`(7,l)`, `afrh` for arms `(8,h)`–`(15,h)`.  An
out-of-range pin panics with no write. -/
def set_alt (pin v : Nat) : WResult :=
  if pin ≤ 15 then
    WResult.ok [GWrite.moder pin (PinMode.Alt 0).val,
      if pin ≤ 7 then GWrite.afrl pin v else GWrite.afrh pin v]
  else WResult.panicked []

/-- The `get_input_data!` macro: a match over pin numbers 0–15 reading bit
`num` of `IDR` (`idr<num>().bit_is_set()`); an out-of-range pin panics before
any register access. -/
def get_input_data (pin : Nat) (s : GpioRegs) : Option Bool :=
  if pin ≤ 15 then some (s.idr.testBit pin) else none

/-- The `set_state!` macro: a match over pin numbers 0–15 whose arm performs
the single whole-word write `bsrr.write(1 << (offset + num))`; an
out-of-range pin panics with no write. -/
def set_state_w (pin offset : Nat) : WResult :=
  if pin ≤ 15 then WResult.ok [GWrite.bsrr (1 <<< (offset + pin))] else WResult.panicked []

/-- `Pin::alt_fn`: asserts the alternate-function value is 0–15 (panicking
with no write otherwise), then invokes `set_alt!`.  All three `cfg` branches
pass the same arm list `[(0,l),…,(7,l),(8,h),…,(15,h)]`. -/
def Pin.alt_fn (p : Pin) (value : Nat) : WResult :=
  if value ≤ 15 then set_alt p.pin value else WResult.panicked []

/-- `Pin::mode`: writes the 2-bit `MODER` field of the pin with
`value.val()` via `set_field!`, then — only for `Alt(alt)` — calls
`alt_fn(alt)`. -/
def Pin.mode (p : Pin) (value : PinMode) : WResult :=
  WResult.andThen (set_field p.pin (GWrite.moder p.pin value.val))
    (match value with
      | PinMode.Alt alt => Pin.alt_fn p alt
      | _ => WResult.ok [])

/-- `Pin::output_type`: writes the 1-bit `OTYPER` field with
`value as u8 != 0` via `set_field!`. -/
def Pin.output_type (p : Pin) (value : OutputType) : WResult :=
  set_field p.pin (GWrite.otyper p.pin (value.val != 0))

/-- `Pin::output_speed`: writes the 2-bit `OSPEEDR` field with `value as u8`
via `set_field!`. -/
def Pin.output_speed (p : Pin) (value : OutputSpeed) : WResult :=
  set_field p.pin (GWrite.ospeedr p.pin value.val)

/-- `Pin::pull`: writes the 2-bit `PUPDR` field with `value as u8` via
`set_field!`. -/
def Pin.pull (p : Pin) (value : Pull) : WResult :=
  set_field p.pin (GWrite.pupdr p.pin value.val)

/-- `Pin::cfg_lock` (non-f373 targets): writes the 1-bit `LCKR` field with
`value as u8 != 0` via `set_field!`. -/
def Pin.cfg_lock (p : Pin) (value : CfgLock) : WResult :=
  set_field p.pin (GWrite.lckr p.pin (value.val != 0))

/-- `Pin::get_state`: reads the pin's `IDR` bit via `get_input_data!` and
maps it to `High`/`Low`. -/
def Pin.get_state (p : Pin) (s : GpioRegs) : Option PinState :=
  match get_input_data p.pin s with
  | none => none
  | some val => some (if val then PinState.High else PinState.Low)

/-- `Pin::set_state`: computes `offset` (16 for `Low`, 0 for `High`) and
performs the single atomic `BSRR` write via `set_state!`. -/
def Pin.set_state (p : Pin) (value : PinState) : WResult :=
  set_state_w p.pin (match value with | PinState.Low => 16 | PinState.High => 0)

/-- `Pin::is_high`: reads the pin's `IDR` bit via `get_input_data!`. -/
def Pin.is_high (p : Pin) (s : GpioRegs) : Option Bool :=
  get_input_data p.pin s

/-- `Pin::is_low`: `!self.is_high()`. -/
def Pin.is_low (p : Pin) (s : GpioRegs) : Option Bool :=
  match Pin.is_high p s with
  | none => none
  | some b => some (!b)

/-- `Pin::set_high`: `self.set_state(PinState::High)`. -/
def Pin.set_high (p : Pin) : WResult :=
  Pin.set_state p PinState.High

/-- `Pin::set_low`: `self.set_state(PinState::Low)`. -/
def Pin.set_low (p : Pin) : WResult :=
  Pin.set_state p PinState.Low

/-- `ToggleableOutputPin::toggle` for `Pin`: if `is_high()` then `set_low()`
else `set_high()`; the resulting `BSRR` write is interpreted against the
register block.  (A panic inside the branch cannot follow a successful
`is_high`, since both guard on the same pin range.) -/
def Pin.toggle (p : Pin) (s : GpioRegs) : Option GpioRegs :=
  match Pin.is_high p s with
  | none => none
  | some true =>
    match Pin.set_low p with
    | WResult.ok ws => some (applyWrites s ws)
    | WResult.panicked _ => none
  | some false =>
    match Pin.set_high p with
    | WResult.ok ws => some (applyWrites s ws)
    | WResult.panicked _ => none

/-- Hardware propagation for an output-configured pin: the input data
register reflects the level the pin is driven to, i.e. `IDR` follows `ODR`
(spec: `write_state(High)` followed by `read_state()` returns `High`). -/
def settle (s : GpioRegs) : GpioRegs := { s with idr := s.odr }

/-- Free function `is_high(port, pin)`: `get_input_data!` against the port's
register block (the `s` argument stands for `regs(port)`, the block the port
argument selects). -/
def is_high (port : Port) (pin : Nat) (s : GpioRegs) : Option Bool :=
  get_input_data pin s

/-- Free function `is_low(port, pin)`: `!is_high(port, pin)`. -/
def is_low (port : Port) (pin : Nat) (s : GpioRegs) : Option Bool :=
  match is_high port pin s with
  | none => none
  | some b => some (!b)

/-- Free function `set_state(port, pin, value)`: same body as
`Pin::set_state`, against the block selected by `port`. -/
def set_state (port : Port) (pin : Nat) (value : PinState) : WResult :=
  set_state_w pin (match value with | PinState.Low => 16 | PinState.High => 0)

/-- Free function `set_high(port, pin)`. -/
def set_high (port : Port) (pin : Nat) : WResult :=
  set_state port pin PinState.High

/-- Free function `set_low(port, pin)`. -/
def set_low (port : Port) (pin : Nat) : WResult :=
  set_state port pin PinState.Low

/-- The EXTI registers touched by `set_exti!` (single-bank variants):
interrupt mask, rising-trigger enable and falling-trigger enable, one bit
per line. -/
structure ExtiState where
  imr1 : Nat
  rtsr1 : Nat
  ftsr1 : Nat
deriving DecidableEq

/-- The four SYSCFG external-interrupt control registers `EXTICR1`–`EXTICR4`;
each holds four 4-bit routing sub-fields (fields `EXTI(4k)`–`EXTI(4k+3)` at
bit offsets 0, 4, 8, 12). -/
structure SyscfgState where
  exticr1 : Nat
  exticr2 : Nat
  exticr3 : Nat
  exticr4 : Nat
deriving DecidableEq

/-- Result of an interrupt-configuration call: the EXTI and SYSCFG register
state on success, or the (unchanged-so-far) state at the moment of a panic. -/
inductive ExtiResult where
  | ok (exti : ExtiState) (syscfg : SyscfgState)
  | panicked (exti : ExtiState) (syscfg : SyscfgState)
deriving DecidableEq

/-- The `EXTICR` register number paired with each pin number in the arm list
passed to `set_exti!` by `Pin::enable_interrupt`:
`[(0,1),(1,1),(2,1),(3,1),(4,2),(5,2),(6,2),(7,2),(8,3),(9,3),(10,3),(11,3),
(12,4),(13,4),(14,4),(15,4)]`.  Pins 16 and above never reach the table (the
macro panics first); the catch-all arm is unreachable there. -/
def extiCrNum (pin : Nat) : Nat :=
  match pin with
  | 0 => 1
  | 1 => 1
  | 2 => 1
  | 3 => 1
  | 4 => 2
  | 5 => 2
  | 6 => 2
  | 7 => 2
  | 8 => 3
  | 9 => 3
  | 10 => 3
  | 11 => 3
  | 12 => 4
  | 13 => 4
  | 14 => 4
  | _ => 4

/-- The register word of `EXTICRk`. -/
def syscfgWord (sg : SyscfgState) (k : Nat) : Nat :=
  match k with
  | 1 => sg.exticr1
  | 2 => sg.exticr2
  | 3 => sg.exticr3
  | _ => sg.exticr4

/-- PAC `modify` of the 4-bit field at offset `off` of `EXTICRk`
(`syscfg.exticr<k>.modify(w.exti<num>().bits(val))`). -/
def syscfgSet (sg : SyscfgState) (k off v : Nat) : SyscfgState :=
  match k with
  | 1 => { sg with exticr1 := setField sg.exticr1 off 4 v }
  | 2 => { sg with exticr2 := setField sg.exticr2 off 4 v }
  | 3 => { sg with exticr3 := setField sg.exticr3 off 4 v }
  | _ => { sg with exticr4 := setField sg.exticr4 off 4 v }

/-- The `set_exti!` macro (generic single-bank branch, used on f3/l4/g4/wb/h7
targets): for an in-range pin it sets the line's `IMR1` mask bit, writes the
`RTSR1` trigger bit with `trigger` and the `FTSR1` trigger bit with
`!trigger`, then writes `val` into the pin's 4-bit `EXTICR` field — field
`EXTI<num>` of `EXTICR<crnum>`, which occupies the 4-bit sub-field at bit
offset `4 * (num mod 4)` of that register word.  An out-of-range pin panics
before any register access. -/
def set_exti (pin : Nat) (trigger : Bool) (val : Nat) (es : ExtiState) (sg : SyscfgState) :
    ExtiResult :=
  if pin ≤ 15 then
    let es1 : ExtiState := { es with imr1 := setField es.imr1 pin 1 1 }
    let es2 : ExtiState := { es1 with rtsr1 := setField es1.rtsr1 pin 1 (if trigger then 1 else 0) }
    let es3 : ExtiState := { es2 with ftsr1 := setField es2.ftsr1 pin 1 (if trigger then 0 else 1) }
    ExtiResult.ok es3 (syscfgSet sg (extiCrNum pin) (4 * (pin % 4)) val)
  else ExtiResult.panicked es sg

/-- `Pin::enable_interrupt` (non-f4/l5/g0 branch, which calls `set_exti!`):
computes `rise_trigger` from the requested edge and invokes the macro with
the port's routing code `self.port.cr_val()`. -/
def Pin.enable_interrupt (p : Pin) (edge : Edge) (es : ExtiState) (sg : SyscfgState) :
    ExtiResult :=
  set_exti p.pin
    (match edge with
      | Edge.Rising => true
      | Edge.Falling => false)
    p.port.cr_val es sg

/-- The RCC AHB2 clock-enable bits read and written by `Pin::new` on the
`else`-branch targets (L4/L5/G4), one per GPIO port. -/
structure RccState where
  gpioaen : Bool
  gpioben : Bool
  gpiocen : Bool
  gpioden : Bool
  gpioeen : Bool
  gpiofen : Bool
  gpiogen : Bool
  gpiohen : Bool
deriving DecidableEq

/-- An observable RCC side effect: a clock-enable bit set, or a reset bit
pulsed (set then cleared), for the named port. -/
inductive RccEvent where
  | enable (p : Port)
  | resetPulse (p : Port)
deriving DecidableEq

/-- Set the AHB2 clock-enable bit of a port. -/
def RccState.setEn (s : RccState) : Port → RccState
  | Port.A => { s with gpioaen := true }
  | Port.B => { s with gpioben := true }
  | Port.C => { s with gpiocen := true }
  | Port.D => { s with gpioden := true }
  | Port.E => { s with gpioeen := true }
  | Port.F => { s with gpiofen := true }
  | Port.G => { s with gpiogen := true }
  | Port.H => { s with gpiohen := true }

/-- Modelled from the spec: the `rcc_en_reset!(ahb2, gpioX, rcc)` macro is
defined outside this module; per the spec's power-management collaborator it
sets the named port's clock-enable bit and pulses its reset bit
("enable ... and a pulse_reset(port) operation").  The argument names which
port's bits are touched. -/
def rcc_en_reset (x : Port) (s : RccState) : RccState × List RccEvent :=
  (s.setEn x, [RccEvent.enable x, RccEvent.resetPulse x])

/-- The clock-enable dispatch inside `Pin::new`, `else` branch (L4/L5/G4
targets), transcribed arm by arm: each arm first reads one `AHB2ENR` enable
bit (`gpioXen().bit_is_clear()`) and, if it is clear, calls
`rcc_en_reset!(ahb2, gpioY, rcc)`.  Arms A–F read and enable their own port;
the `Port::G` arm reads `gpiohen` and calls `rcc_en_reset!(ahb2, gpioa, rcc)`,
and the `Port::H` arm likewise reads `gpiohen` and calls
`rcc_en_reset!(ahb2, gpioa, rcc)`, exactly as in the source. -/
def new_clock_enable (port : Port) (s : RccState) : RccState × List RccEvent :=
  match port with
  | Port.A => if s.gpioaen then (s, []) else rcc_en_reset Port.A s
  | Port.B => if s.gpioben then (s, []) else rcc_en_reset Port.B s
  | Port.C => if s.gpiocen then (s, []) else rcc_en_reset Port.C s
  | Port.D => if s.gpioden then (s, []) else rcc_en_reset Port.D s
  | Port.E => if s.gpioeen then (s, []) else rcc_en_reset Port.E s
  | Port.F => if s.gpiofen then (s, []) else rcc_en_reset Port.F s
  | Port.G => if s.gpiohen then (s, []) else rcc_en_reset Port.A s
  | Port.H => if s.gpiohen then (s, []) else rcc_en_reset Port.A s

/-- `Pin::new(port, pin, mode)`: asserts `pin <= 15` (panicking with no
register access otherwise), performs the clock-enable dispatch inside a
critical section, then constructs the pin and calls `mode(mode)`.  The
result carries the RCC state, the RCC events that occurred, and the GPIO
writes performed by the initial `mode` call. -/
def Pin.new (port : Port) (pin : Nat) (mode : PinMode) (rcc : RccState) :
    Option (RccState × List RccEvent × WResult) :=
  if pin ≤ 15 then
    let r := new_clock_enable port rcc
    some (r.1, r.2, Pin.mode { port := port, pin := pin } mode)
  else none

/-- An all-clear RCC state: no port clock enabled yet. -/
def rccAllOff : RccState :=
  { gpioaen := false, gpioben := false, gpiocen := false, gpioden := false,
    gpioeen := false, gpiofen := false, gpiogen := false, gpiohen := false }

/-- A zeroed GPIO register block, used as a concrete state. -/
def gpioZero : GpioRegs :=
  { moder := 0, otyper := 0, ospeedr := 0, pupdr := 0, lckr := 0,
    afrl := 0, afrh := 0, idr := 0, odr := 0 }

/-- Reading back a just-written field returns the written value (truncated
to the field width). -/
theorem getField_setField_self (w off width v : Nat) :
    getField (setField w off width v) off width = v % 2 ^ width := by
  have hO : 0 < 2 ^ off := pow_pos (by norm_num) off
  have hr : w % 2 ^ off < 2 ^ off := Nat.mod_lt _ hO
  have hv : v % 2 ^ width < 2 ^ width := Nat.mod_lt _ (pow_pos (by norm_num) width)
  unfold getField setField
  rw [Nat.mul_add_div hO, Nat.div_eq_of_lt hr, Nat.add_zero, Nat.mul_add_mod,
    Nat.mod_eq_of_lt hv]

/-- A field entirely below bit `n` only depends on the word modulo `2 ^ n`. -/
theorem getField_mod_pow (x n off width : Nat) (h : off + width ≤ n) :
    getField (x % 2 ^ n) off width = getField x off width := by
  have hO : 0 < 2 ^ off := pow_pos (by norm_num) off
  have hn : 0 < 2 ^ n := pow_pos (by norm_num) n
  obtain ⟨q, r, hqr, hr⟩ : ∃ q r, x = 2 ^ n * q + r ∧ r < 2 ^ n :=
    ⟨x / 2 ^ n, x % 2 ^ n, by rw [Nat.div_add_mod], Nat.mod_lt _ hn⟩
  subst hqr
  rw [Nat.mul_add_mod, Nat.mod_eq_of_lt hr]
  unfold getField
  have h1 : 2 ^ n = 2 ^ off * 2 ^ (n - off) := by
    rw [← pow_add]
    congr 1
    omega
  rw [h1, Nat.mul_assoc, Nat.mul_add_div hO]
  have h2 : 2 ^ (n - off) = 2 ^ width * 2 ^ (n - off - width) := by
    rw [← pow_add]
    congr 1
    omega
  rw [h2, Nat.mul_assoc]
  conv_rhs => rw [Nat.mul_comm (2 ^ width) (2 ^ (n - off - width) * q), Nat.add_comm]
  rw [Nat.add_mul_mod_self_right]

/-- `setField` preserves the word below the field's offset. -/
theorem setField_mod_pow_off (w off width v : Nat) :
    setField w off width v % 2 ^ off = w % 2 ^ off := by
  have hO : 0 < 2 ^ off := pow_pos (by norm_num) off
  unfold setField
  rw [Nat.mul_add_mod, Nat.mod_eq_of_lt (Nat.mod_lt _ hO)]

/-- `setField` preserves the word above the field. -/
theorem setField_div_pow (w off width v : Nat) :
    setField w off width v / 2 ^ (off + width) = w / 2 ^ (off + width) := by
  have hO : 0 < 2 ^ off := pow_pos (by norm_num) off
  have hv : v % 2 ^ width < 2 ^ width := Nat.mod_lt _ (pow_pos (by norm_num) width)
  have hr : w % 2 ^ off < 2 ^ off := Nat.mod_lt _ hO
  have hlow : 2 ^ off * (v % 2 ^ width) + w % 2 ^ off < 2 ^ (off + width) := by
    have h2 : 2 ^ off * (v % 2 ^ width + 1) ≤ 2 ^ off * 2 ^ width :=
      Nat.mul_le_mul_left _ (by omega)
    rw [Nat.mul_add, Nat.mul_one] at h2
    rw [pow_add]
    omega
  unfold setField
  rw [Nat.mul_add, ← Nat.mul_assoc, ← pow_add, Nat.add_assoc,
    Nat.mul_add_div (pow_pos (by norm_num) (off + width)), Nat.div_eq_of_lt hlow,
    Nat.add_zero]

/-- Dividing a word shifts every field down by the divided amount. -/
theorem getField_div_pow (x m off width : Nat) (h : m ≤ off) :
    getField (x / 2 ^ m) (off - m) width = getField x off width := by
  unfold getField
  rw [Nat.div_div_eq_div_mul, ← pow_add]
  have h1 : m + (off - m) = off := by omega
  rw [h1]

/-- Writing one field does not disturb any field disjoint from it. -/
theorem getField_setField_disjoint (w off width v off2 width2 : Nat)
    (h : off2 + width2 ≤ off ∨ off + width ≤ off2) :
    getField (setField w off width v) off2 width2 = getField w off2 width2 := by
  rcases h with h | h
  · rw [← getField_mod_pow (setField w off width v) off off2 width2 h,
      setField_mod_pow_off, getField_mod_pow w off off2 width2 h]
  · have h1 := getField_div_pow (setField w off width v) (off + width) off2 width2 h
    have h2 := getField_div_pow w (off + width) off2 width2 h
    rw [← h1, setField_div_pow, h2]

/-- Per-bit semantics of the atomic set/reset register: for a pin bit
`i < 16`, the new ODR bit is 1 if set bit `i` of the written word is set,
else 0 if reset bit `i + 16` is set, else the old ODR bit. -/
theorem applyBsrr_testBit (odr w i : Nat) (hi : i < 16) :
    (applyBsrr odr w).testBit i = (w.testBit i || (odr.testBit i && !w.testBit (16 + i))) := by
  unfold applyBsrr
  simp only [Nat.testBit_or, Nat.testBit_and, Nat.testBit_xor, Nat.testBit_mod_two_pow,
    Nat.testBit_shiftRight, Nat.testBit_two_pow_sub_one, decide_eq_true hi]
  cases hw : w.testBit i <;> cases ho : odr.testBit i <;> cases hw2 : w.testBit (16 + i) <;> simp

/-- `EXTICRk` after `syscfgSet` on the same register: the field is inserted
into that word. -/
theorem syscfgWord_set_self (sg : SyscfgState) (k off v : Nat) (h1 : 1 ≤ k) (h4 : k ≤ 4) :
    syscfgWord (syscfgSet sg k off v) k = setField (syscfgWord sg k) off 4 v := by
  interval_cases k <;> rfl

/-- `syscfgSet` leaves every other `EXTICR` register word untouched. -/
theorem syscfgWord_set_other (sg : SyscfgState) (k off v k2 : Nat) (h1 : 1 ≤ k) (h4 : k ≤ 4)
    (h1b : 1 ≤ k2) (h4b : k2 ≤ 4) (hne : k2 ≠ k) :
    syscfgWord (syscfgSet sg k off v) k2 = syscfgWord sg k2 := by
  interval_cases k <;> interval_cases k2 <;> first | rfl | exact absurd rfl hne

/-- C1: the claim says `Pin::new(P, pin, mode)` enables (and pulse-resets)
the peripheral clock of port `P` itself — not of any other port — the first
time `P` is used.  On the `else`-branch targets (L4/L5/G4) the `Port::H` arm
reads `AHB2ENR.GPIOHEN` but then calls `rcc_en_reset!(ahb2, gpioa, rcc)`:
constructing the first pin of port H enables and pulse-resets port A's
clock and leaves `gpiohen` clear; the `Port::G` arm does the same.  This
theorem evaluates the code at that failing input. -/
theorem c1_new_clock_enable_wrong_port :
    Pin.new Port.H 0 PinMode.Input rccAllOff =
      some ({ rccAllOff with gpioaen := true },
        [RccEvent.enable Port.A, RccEvent.resetPulse Port.A], WResult.ok [GWrite.moder 0 0]) ∧
    (new_clock_enable Port.H rccAllOff).1.gpiohen = false ∧
    (new_clock_enable Port.G rccAllOff).2 =
      [RccEvent.enable Port.A, RccEvent.resetPulse Port.A] ∧
    (new_clock_enable Port.G rccAllOff).1.gpiogen = false := by
  decide

/-- C2 counterexample: the claim says `mode(Alt(f))` with `f > 15` aborts
with no register write — in particular no MODER write — preceding the
check.  At pin 0, `mode(Alt(16))` panics, but only after `set_field!` has
already written the MODER field (to the alternate encoding 0b10): the write
list at the panic is `[moder 0 2]`, not `[]`. -/
theorem c2_counterexample :
    Pin.mode { port := Port.A, pin := 0 } (PinMode.Alt 16) =
      WResult.panicked [GWrite.moder 0 2] ∧
    Pin.mode { port := Port.A, pin := 0 } (PinMode.Alt 16) ≠ WResult.panicked [] := by
  decide

/-- C2 amended: for every pin 0–15 and every alternate-function index
`f > 15`, `mode(Alt(f))` aborts execution, and exactly one register write
precedes the abort — the 2-bit MODER write of the alternate encoding 0b10
issued by `mode` itself; no write to the alternate-function register
precedes the check in `alt_fn`. -/
theorem c2_amended_alt_oob_aborts (pin f : Nat) (port : Port) (hp : pin ≤ 15) (hf : 15 < f) :
    Pin.mode { port := port, pin := pin } (PinMode.Alt f) =
      WResult.panicked [GWrite.moder pin 2] := by
  have hf2 : ¬ f ≤ 15 := by omega
  simp [Pin.mode, Pin.alt_fn, set_field, PinMode.val, WResult.andThen, hp, hf2]

/-- C2 amended, witness at pin 0 and function index 16. -/
theorem c2_amended_witness :
    (0 : Nat) ≤ 15 ∧ (15 : Nat) < 16 ∧
    Pin.mode { port := Port.A, pin := 0 } (PinMode.Alt 16) =
      WResult.panicked [GWrite.moder 0 2] :=
  ⟨by decide, by decide, c2_amended_alt_oob_aborts 0 16 Port.A (by decide) (by decide)⟩

/-- C3: for every pin 0–15 and alternate-function index `f` 0–15,
`mode(Alt(f))` succeeds and its writes, applied to an arbitrary register
block state, set the pin's 2-bit MODER field to the alternate encoding 0b10
and fully overwrite the pin's 4-bit alternate-function field with `f`, using
the low bank AFRL for pins 0–7 and the high bank AFRH for pins 8–15 and
leaving the other bank untouched.  The initial state `s` is arbitrary, so
the field holds `f` regardless of any previously written function value:
each call fully overwrites the field and leaves nothing stale. -/
theorem c3_alternate_mode (pin f : Nat) (port : Port) (s : GpioRegs)
    (hp : pin ≤ 15) (hf : f ≤ 15) :
    ∃ ws, Pin.mode { port := port, pin := pin } (PinMode.Alt f) = WResult.ok ws ∧
      ws = [GWrite.moder pin 2, GWrite.moder pin 2,
        if pin ≤ 7 then GWrite.afrl pin f else GWrite.afrh pin f] ∧
      getField (applyWrites s ws).moder (2 * pin) 2 = 2 ∧
      (pin ≤ 7 → getField (applyWrites s ws).afrl (4 * pin) 4 = f ∧
        (applyWrites s ws).afrh = s.afrh) ∧
      (8 ≤ pin → getField (applyWrites s ws).afrh (4 * (pin - 8)) 4 = f ∧
        (applyWrites s ws).afrl = s.afrl) := by
  have hf16 : f < 16 := by omega
  have hmode : Pin.mode { port := port, pin := pin } (PinMode.Alt f) =
      WResult.ok [GWrite.moder pin 2, GWrite.moder pin 2,
        if pin ≤ 7 then GWrite.afrl pin f else GWrite.afrh pin f] := by
    simp [Pin.mode, Pin.alt_fn, set_alt, set_field, PinMode.val, WResult.andThen, hp, hf]
  refine ⟨_, hmode, rfl, ?_, ?_, ?_⟩
  · rcases le_or_lt pin 7 with h7 | h7
    · simp only [if_pos h7, applyWrites, List.foldl, applyWrite]
      rw [getField_setField_self]
      norm_num
    · simp only [if_neg (by omega : ¬ pin ≤ 7), applyWrites, List.foldl, applyWrite]
      rw [getField_setField_self]
      norm_num
  · intro h7
    refine ⟨?_, ?_⟩
    · simp only [if_pos h7, applyWrites, List.foldl, applyWrite]
      rw [getField_setField_self, show (2 : Nat) ^ 4 = 16 from by norm_num,
        Nat.mod_eq_of_lt hf16]
    · simp [if_pos h7, applyWrites, applyWrite]
  · intro h8
    refine ⟨?_, ?_⟩
    · simp only [if_neg (by omega : ¬ pin ≤ 7), applyWrites, List.foldl, applyWrite]
      rw [getField_setField_self, show (2 : Nat) ^ 4 = 16 from by norm_num,
        Nat.mod_eq_of_lt hf16]
    · simp [if_neg (by omega : ¬ pin ≤ 7), applyWrites, applyWrite]

/-- C3, witness at pin 3, function 7 and at pin 12, function 5 would need a
second theorem application; we instantiate at pin 3, function 7, on a zeroed
register block. -/
theorem c3_witness :
    (3 : Nat) ≤ 15 ∧ (7 : Nat) ≤ 15 ∧
    (∃ ws, Pin.mode { port := Port.A, pin := 3 } (PinMode.Alt 7) = WResult.ok ws ∧
      ws = [GWrite.moder 3 2, GWrite.moder 3 2,
        if 3 ≤ 7 then GWrite.afrl 3 7 else GWrite.afrh 3 7] ∧
      getField (applyWrites gpioZero ws).moder (2 * 3) 2 = 2 ∧
      (3 ≤ 7 → getField (applyWrites gpioZero ws).afrl (4 * 3) 4 = 7 ∧
        (applyWrites gpioZero ws).afrh = gpioZero.afrh) ∧
      (8 ≤ 3 → getField (applyWrites gpioZero ws).afrh (4 * (3 - 8)) 4 = 7 ∧
        (applyWrites gpioZero ws).afrl = gpioZero.afrl)) :=
  ⟨by decide, by decide, c3_alternate_mode 3 7 Port.A gpioZero (by decide) (by decide)⟩

/-- C4: for every pin 0–15, `set_state` issues exactly one write to the
atomic set/reset register BSRR; its value is `1 <<< pin` (that is `2 ^ pin`)
for `High` and `1 <<< (pin + 16)` (that is `2 ^ (pin + 16)`) for `Low` — the
reset bit sits exactly 16 positions above the set bit in the same word. -/
theorem c4_set_state_encoding (pin : Nat) (port : Port) (hp : pin ≤ 15) :
    Pin.set_state { port := port, pin := pin } PinState.High =
      WResult.ok [GWrite.bsrr (2 ^ pin)] ∧
    Pin.set_state { port := port, pin := pin } PinState.Low =
      WResult.ok [GWrite.bsrr (2 ^ (pin + 16))] ∧
    (2 ^ (pin + 16) : Nat) = 2 ^ pin * 2 ^ 16 := by
  have hadd : 16 + pin = pin + 16 := by omega
  refine ⟨?_, ?_, by rw [pow_add]⟩
  · simp [Pin.set_state, set_state_w, hp, Nat.one_shiftLeft]
  · simp [Pin.set_state, set_state_w, hp, Nat.one_shiftLeft, hadd]

/-- C4, witness at pin 5. -/
theorem c4_witness :
    (5 : Nat) ≤ 15 ∧
    (Pin.set_state { port := Port.A, pin := 5 } PinState.High =
        WResult.ok [GWrite.bsrr (2 ^ 5)] ∧
      Pin.set_state { port := Port.A, pin := 5 } PinState.Low =
        WResult.ok [GWrite.bsrr (2 ^ (5 + 16))] ∧
      (2 ^ (5 + 16) : Nat) = 2 ^ 5 * 2 ^ 16) :=
  ⟨by decide, c4_set_state_encoding 5 Port.A (by decide)⟩

/-- C5: enabling an interrupt on pin `i` of port `P` succeeds for every edge
and writes `P`'s numeric routing code into the 4-bit sub-field `i mod 4` of
control register `EXTICR(i/4 + 1)` (0-based register index `i / 4`), without
disturbing the other three sub-fields of that register word or the other
three `EXTICR` registers. -/
theorem c5_exti_routing (pin : Nat) (port : Port) (edge : Edge) (es : ExtiState)
    (sg : SyscfgState) (hp : pin ≤ 15) :
    ∃ es2 sg2, Pin.enable_interrupt { port := port, pin := pin } edge es sg =
        ExtiResult.ok es2 sg2 ∧
      extiCrNum pin = pin / 4 + 1 ∧
      getField (syscfgWord sg2 (extiCrNum pin)) (4 * (pin % 4)) 4 = port.cr_val ∧
      (∀ j, j < 4 → j ≠ pin % 4 →
        getField (syscfgWord sg2 (extiCrNum pin)) (4 * j) 4 =
          getField (syscfgWord sg (extiCrNum pin)) (4 * j) 4) ∧
      (∀ k, 1 ≤ k → k ≤ 4 → k ≠ extiCrNum pin → syscfgWord sg2 k = syscfgWord sg k) := by
  have hcr : extiCrNum pin = pin / 4 + 1 := by interval_cases pin <;> rfl
  have hk1 : 1 ≤ extiCrNum pin := by rw [hcr]; omega
  have hk4 : extiCrNum pin ≤ 4 := by rw [hcr]; omega
  have hcrv : port.cr_val < 16 := by cases port <;> norm_num [Port.cr_val]
  refine ⟨{ imr1 := setField es.imr1 pin 1 1,
            rtsr1 := setField es.rtsr1 pin 1
              (if (match edge with | Edge.Rising => true | Edge.Falling => false)
                then 1 else 0),
            ftsr1 := setField es.ftsr1 pin 1
              (if (match edge with | Edge.Rising => true | Edge.Falling => false)
                then 0 else 1) },
          syscfgSet sg (extiCrNum pin) (4 * (pin % 4)) port.cr_val, ?_, hcr, ?_, ?_, ?_⟩
  · cases edge <;> simp [Pin.enable_interrupt, set_exti, hp]
  · rw [syscfgWord_set_self sg _ _ _ hk1 hk4, getField_setField_self,
      show (2 : Nat) ^ 4 = 16 from by norm_num, Nat.mod_eq_of_lt hcrv]
  · intro j hj hne
    rw [syscfgWord_set_self sg _ _ _ hk1 hk4]
    apply getField_setField_disjoint
    rcases lt_or_gt_of_ne hne with h | h
    · left
      omega
    · right
      omega
  · intro k h1 h4 hne
    exact syscfgWord_set_other sg _ _ _ _ hk1 hk4 h1 h4 hne

/-- C5, witness at pin 6 of port C (register `EXTICR2`, sub-field 2). -/
theorem c5_witness :
    (6 : Nat) ≤ 15 ∧
    (∃ es2 sg2, Pin.enable_interrupt { port := Port.C, pin := 6 } Edge.Falling ⟨0, 0, 0⟩
        ⟨0, 0, 0, 0⟩ = ExtiResult.ok es2 sg2 ∧
      extiCrNum 6 = 6 / 4 + 1 ∧
      getField (syscfgWord sg2 (extiCrNum 6)) (4 * (6 % 4)) 4 = Port.cr_val Port.C ∧
      (∀ j, j < 4 → j ≠ 6 % 4 →
        getField (syscfgWord sg2 (extiCrNum 6)) (4 * j) 4 =
          getField (syscfgWord ⟨0, 0, 0, 0⟩ (extiCrNum 6)) (4 * j) 4) ∧
      (∀ k, 1 ≤ k → k ≤ 4 → k ≠ extiCrNum 6 →
        syscfgWord sg2 k = syscfgWord ⟨0, 0, 0, 0⟩ k)) :=
  ⟨by decide, c5_exti_routing 6 Port.C Edge.Falling ⟨0, 0, 0⟩ ⟨0, 0, 0, 0⟩ (by decide)⟩

/-- C6: for every pin 0–15, `enable_interrupt(Edge::Rising)` sets the line's
rising-trigger bit in `RTSR1` and clears its falling-trigger bit in `FTSR1`;
`Edge::Falling` produces the exact complement. -/
theorem c6_edge_trigger_complement (pin : Nat) (port : Port) (es : ExtiState)
    (sg : SyscfgState) (hp : pin ≤ 15) :
    ∃ esR sgR esF sgF,
      Pin.enable_interrupt { port := port, pin := pin } Edge.Rising es sg =
        ExtiResult.ok esR sgR ∧
      getField esR.rtsr1 pin 1 = 1 ∧ getField esR.ftsr1 pin 1 = 0 ∧
      Pin.enable_interrupt { port := port, pin := pin } Edge.Falling es sg =
        ExtiResult.ok esF sgF ∧
      getField esF.rtsr1 pin 1 = 0 ∧ getField esF.ftsr1 pin 1 = 1 := by
  refine ⟨{ imr1 := setField es.imr1 pin 1 1, rtsr1 := setField es.rtsr1 pin 1 1,
            ftsr1 := setField es.ftsr1 pin 1 0 },
          syscfgSet sg (extiCrNum pin) (4 * (pin % 4)) port.cr_val,
          { imr1 := setField es.imr1 pin 1 1, rtsr1 := setField es.rtsr1 pin 1 0,
            ftsr1 := setField es.ftsr1 pin 1 1 },
          syscfgSet sg (extiCrNum pin) (4 * (pin % 4)) port.cr_val,
          ?_, ?_, ?_, ?_, ?_, ?_⟩
  · simp [Pin.enable_interrupt, set_exti, hp]
  · show getField (setField es.rtsr1 pin 1 1) pin 1 = 1
    rw [getField_setField_self]
    norm_num
  · show getField (setField es.ftsr1 pin 1 0) pin 1 = 0
    rw [getField_setField_self]
    norm_num
  · simp [Pin.enable_interrupt, set_exti, hp]
  · show getField (setField es.rtsr1 pin 1 0) pin 1 = 0
    rw [getField_setField_self]
    norm_num
  · show getField (setField es.ftsr1 pin 1 1) pin 1 = 1
    rw [getField_setField_self]
    norm_num

/-- C6, witness at pin 2 of port D. -/
theorem c6_witness :
    (2 : Nat) ≤ 15 ∧
    (∃ esR sgR esF sgF,
      Pin.enable_interrupt { port := Port.D, pin := 2 } Edge.Rising ⟨0, 0, 0⟩ ⟨0, 0, 0, 0⟩ =
        ExtiResult.ok esR sgR ∧
      getField esR.rtsr1 2 1 = 1 ∧ getField esR.ftsr1 2 1 = 0 ∧
      Pin.enable_interrupt { port := Port.D, pin := 2 } Edge.Falling ⟨0, 0, 0⟩ ⟨0, 0, 0, 0⟩ =
        ExtiResult.ok esF sgF ∧
      getField esF.rtsr1 2 1 = 0 ∧ getField esF.ftsr1 2 1 = 1) :=
  ⟨by decide, c6_edge_trigger_complement 2 Port.D ⟨0, 0, 0⟩ ⟨0, 0, 0, 0⟩ (by decide)⟩

/-- C7: every configuration and I/O operation — `mode`, `output_type`,
`output_speed`, `pull`, `cfg_lock`, `get_state`, `set_state`,
`enable_interrupt`, and the free-standing `is_high`/`set_high` — given an
out-of-range pin number (16 or more) panics in the dispatch macro's default
arm before any register access: the write list at the panic is empty, reads
return nothing, and the EXTI/SYSCFG state is untouched at the panic. -/
theorem c7_out_of_range_pin_panics (pin : Nat) (hp : 16 ≤ pin) (port : Port) (m : PinMode)
    (ot : OutputType) (os : OutputSpeed) (pl : Pull) (lk : CfgLock) (v : PinState)
    (e : Edge) (s : GpioRegs) (es : ExtiState) (sg : SyscfgState) :
    Pin.mode { port := port, pin := pin } m = WResult.panicked [] ∧
    Pin.output_type { port := port, pin := pin } ot = WResult.panicked [] ∧
    Pin.output_speed { port := port, pin := pin } os = WResult.panicked [] ∧
    Pin.pull { port := port, pin := pin } pl = WResult.panicked [] ∧
    Pin.cfg_lock { port := port, pin := pin } lk = WResult.panicked [] ∧
    Pin.get_state { port := port, pin := pin } s = none ∧
    Pin.set_state { port := port, pin := pin } v = WResult.panicked [] ∧
    Pin.enable_interrupt { port := port, pin := pin } e es sg =
      ExtiResult.panicked es sg ∧
    is_high port pin s = none ∧
    set_high port pin = WResult.panicked [] := by
  have h15 : ¬ pin ≤ 15 := by omega
  refine ⟨?_, ?_, ?_, ?_, ?_, ?_, ?_, ?_, ?_, ?_⟩
  · cases m <;> simp [Pin.mode, Pin.alt_fn, set_alt, set_field, WResult.andThen, h15]
  · simp [Pin.output_type, set_field, h15]
  · simp [Pin.output_speed, set_field, h15]
  · simp [Pin.pull, set_field, h15]
  · simp [Pin.cfg_lock, set_field, h15]
  · simp [Pin.get_state, get_input_data, h15]
  · cases v <;> simp [Pin.set_state, set_state_w, h15]
  · cases e <;> simp [Pin.enable_interrupt, set_exti, h15]
  · simp [is_high, get_input_data, h15]
  · simp [set_high, set_state, set_state_w, h15]

/-- C7, witness at pin 16. -/
theorem c7_witness :
    (16 : Nat) ≤ 16 ∧
    (Pin.mode { port := Port.A, pin := 16 } PinMode.Input = WResult.panicked [] ∧
      Pin.output_type { port := Port.A, pin := 16 } OutputType.PushPull =
        WResult.panicked [] ∧
      Pin.output_speed { port := Port.A, pin := 16 } OutputSpeed.Low = WResult.panicked [] ∧
      Pin.pull { port := Port.A, pin := 16 } Pull.Floating = WResult.panicked [] ∧
      Pin.cfg_lock { port := Port.A, pin := 16 } CfgLock.NotLocked = WResult.panicked [] ∧
      Pin.get_state { port := Port.A, pin := 16 } gpioZero = none ∧
      Pin.set_state { port := Port.A, pin := 16 } PinState.High = WResult.panicked [] ∧
      Pin.enable_interrupt { port := Port.A, pin := 16 } Edge.Rising ⟨0, 0, 0⟩
        ⟨0, 0, 0, 0⟩ = ExtiResult.panicked ⟨0, 0, 0⟩ ⟨0, 0, 0, 0⟩ ∧
      is_high Port.A 16 gpioZero = none ∧
      set_high Port.A 16 = WResult.panicked []) :=
  ⟨by decide, c7_out_of_range_pin_panics 16 (by decide) Port.A PinMode.Input
    OutputType.PushPull OutputSpeed.Low Pull.Floating CfgLock.NotLocked PinState.High
    Edge.Rising gpioZero ⟨0, 0, 0⟩ ⟨0, 0, 0, 0⟩⟩

/-- C8: writing pin `a`'s state issues the single BSRR write, and applying
that write to the port's output data register leaves the output bit of every
other pin `b` of the same port unchanged: the written word has exactly one
bit set, owned by pin `a`. -/
theorem c8_write_isolation (a b : Nat) (port : Port) (v : PinState) (odr : Nat)
    (ha : a ≤ 15) (hb : b ≤ 15) (hab : a ≠ b) :
    ∃ w, Pin.set_state { port := port, pin := a } v = WResult.ok [GWrite.bsrr w] ∧
      (applyBsrr odr w).testBit b = odr.testBit b := by
  cases v with
  | High =>
    refine ⟨1 <<< (0 + a), ?_, ?_⟩
    · simp [Pin.set_state, set_state_w, ha]
    · rw [Nat.one_shiftLeft, applyBsrr_testBit _ _ _ (by omega),
        Nat.testBit_two_pow_of_ne (by omega), Nat.testBit_two_pow_of_ne (by omega)]
      simp
  | Low =>
    refine ⟨1 <<< (16 + a), ?_, ?_⟩
    · simp [Pin.set_state, set_state_w, ha]
    · rw [Nat.one_shiftLeft, applyBsrr_testBit _ _ _ (by omega),
        Nat.testBit_two_pow_of_ne (by omega), Nat.testBit_two_pow_of_ne (by omega)]
      simp

/-- C8, witness: setting pin 0 high leaves pin 1 of an ODR word `5`
unchanged. -/
theorem c8_witness :
    (0 : Nat) ≤ 15 ∧ (1 : Nat) ≤ 15 ∧ (0 : Nat) ≠ 1 ∧
    (∃ w, Pin.set_state { port := Port.A, pin := 0 } PinState.High =
        WResult.ok [GWrite.bsrr w] ∧
      (applyBsrr 5 w).testBit 1 = (5 : Nat).testBit 1) :=
  ⟨by decide, by decide, by decide,
    c8_write_isolation 0 1 Port.A PinState.High 5 (by decide) (by decide) (by decide)⟩

/-- C9: under single-threaded execution, for a validly constructed pin whose
input data register tracks its driven output (an output pin, `settle`
modelling the hardware feedback between the two register reads), two
consecutive `toggle` calls restore the pin's original output state. -/
theorem c9_toggle_involutive (pin : Nat) (port : Port) (s : GpioRegs) (hp : pin ≤ 15)
    (hio : s.idr.testBit pin = s.odr.testBit pin) :
    ∃ s1 s2, Pin.toggle { port := port, pin := pin } s = some s1 ∧
      Pin.toggle { port := port, pin := pin } (settle s1) = some s2 ∧
      s2.odr.testBit pin = s.odr.testBit pin := by
  have hsl : Pin.set_low { port := port, pin := pin } =
      WResult.ok [GWrite.bsrr (1 <<< (16 + pin))] := by
    simp [Pin.set_low, Pin.set_state, set_state_w, hp]
  have hsh : Pin.set_high { port := port, pin := pin } =
      WResult.ok [GWrite.bsrr (1 <<< pin)] := by
    simp [Pin.set_high, Pin.set_state, set_state_w, hp]
  have hlow : ∀ o : Nat, (applyBsrr o (1 <<< (16 + pin))).testBit pin = false := by
    intro o
    rw [Nat.one_shiftLeft, applyBsrr_testBit _ _ _ (by omega),
      Nat.testBit_two_pow_of_ne (by omega), Nat.testBit_two_pow_self]
    simp
  have hhigh : ∀ o : Nat, (applyBsrr o (1 <<< pin)).testBit pin = true := by
    intro o
    rw [Nat.one_shiftLeft, applyBsrr_testBit _ _ _ (by omega), Nat.testBit_two_pow_self]
    simp
  cases h : s.idr.testBit pin with
  | true =>
    refine ⟨{ s with odr := applyBsrr s.odr (1 <<< (16 + pin)) },
            { s with idr := applyBsrr s.odr (1 <<< (16 + pin)),
                     odr := applyBsrr (applyBsrr s.odr (1 <<< (16 + pin))) (1 <<< pin) },
            ?_, ?_, ?_⟩
    · simp [Pin.toggle, Pin.is_high, get_input_data, hp, h, hsl, applyWrites, applyWrite]
    · simp [Pin.toggle, Pin.is_high, get_input_data, hp, settle, hlow, hsh,
        applyWrites, applyWrite]
    · show (applyBsrr (applyBsrr s.odr (1 <<< (16 + pin))) (1 <<< pin)).testBit pin =
        s.odr.testBit pin
      rw [hhigh, ← hio, h]
  | false =>
    refine ⟨{ s with odr := applyBsrr s.odr (1 <<< pin) },
            { s with idr := applyBsrr s.odr (1 <<< pin),
                     odr := applyBsrr (applyBsrr s.odr (1 <<< pin)) (1 <<< (16 + pin)) },
            ?_, ?_, ?_⟩
    · simp [Pin.toggle, Pin.is_high, get_input_data, hp, h, hsh, applyWrites, applyWrite]
    · simp [Pin.toggle, Pin.is_high, get_input_data, hp, settle, hhigh, hsl,
        applyWrites, applyWrite]
    · show (applyBsrr (applyBsrr s.odr (1 <<< pin)) (1 <<< (16 + pin))).testBit pin =
        s.odr.testBit pin
      rw [hlow, ← hio, h]

/-- C9, witness at pin 0 on a zeroed register block. -/
theorem c9_witness :
    (0 : Nat) ≤ 15 ∧ gpioZero.idr.testBit 0 = gpioZero.odr.testBit 0 ∧
    (∃ s1 s2, Pin.toggle { port := Port.A, pin := 0 } gpioZero = some s1 ∧
      Pin.toggle { port := Port.A, pin := 0 } (settle s1) = some s2 ∧
      s2.odr.testBit 0 = gpioZero.odr.testBit 0) :=
  ⟨by decide, by decide, c9_toggle_involutive 0 Port.A gpioZero (by decide) (by decide)⟩

/-- C10: for every pin 0–15, the `Pin` methods and the free functions agree:
`is_high` returns the pin's IDR bit, `is_low` returns exactly its negation
(both variants), and `get_state` returns `High` exactly when `is_high`
returns `true` — all of them read the same input-data register bit. -/
theorem c10_read_consistency (port : Port) (pin : Nat) (s : GpioRegs) (hp : pin ≤ 15) :
    Pin.is_high { port := port, pin := pin } s = some (s.idr.testBit pin) ∧
    Pin.is_low { port := port, pin := pin } s = some (!s.idr.testBit pin) ∧
    is_high port pin s = some (s.idr.testBit pin) ∧
    is_low port pin s = some (!s.idr.testBit pin) ∧
    Pin.get_state { port := port, pin := pin } s =
      some (if s.idr.testBit pin then PinState.High else PinState.Low) := by
  refine ⟨?_, ?_, ?_, ?_, ?_⟩ <;>
    simp [Pin.is_high, Pin.is_low, is_high, is_low, Pin.get_state, get_input_data, hp]

/-- C10, witness at pin 4 of port B. -/
theorem c10_witness :
    (4 : Nat) ≤ 15 ∧
    (Pin.is_high { port := Port.B, pin := 4 } gpioZero = some (gpioZero.idr.testBit 4) ∧
      Pin.is_low { port := Port.B, pin := 4 } gpioZero = some (!gpioZero.idr.testBit 4) ∧
      is_high Port.B 4 gpioZero = some (gpioZero.idr.testBit 4) ∧
      is_low Port.B 4 gpioZero = some (!gpioZero.idr.testBit 4) ∧
      Pin.get_state { port := Port.B, pin := 4 } gpioZero =
        some (if gpioZero.idr.testBit 4 then PinState.High else PinState.Low)) :=
  ⟨by decide, c10_read_consistency Port.B 4 gpioZero (by decide)⟩

end Gpio
